import Mathlib

/-!
Verification of the Garbler session of the mpc repository
(`circuit/garbler.go`) against its specification.

The `Garbler` function is embedded shallowly as a deterministic function
over a typed message stream.  Byte strings become `List Nat`, the framed
transport (`sendUint32` / `sendData` / `receiveUint32` / `receiveData`)
becomes a typed channel of `Msg` values, and the observable behaviour of a
session is the returned result together with the trace of send/receive
events, so ordering properties can be stated.

Repository code that the `Garbler` function calls but that is not part of
the sampled sources (the `ot` package, `Circuit.Garble`, the `IO` group
type with its `Size` and `Split` methods, and the opcode constants) is
modelled from the specification; each such definition carries a doc
comment starting with `Modelled from the spec:`.
-/

namespace MPC

/-- Byte strings (`[]byte` in the source) as lists of naturals. -/
abbrev Bytes := List Nat

/-- One framed message on the wire: either a raw big-endian `u32`
(`sendUint32` / `receiveUint32`) or a length-prefixed byte frame
(`sendData` / `receiveData`). -/
inductive Msg where
| u32 : Nat → Msg
| data : Bytes → Msg
deriving DecidableEq

/-- An observable transport event of the Garbler: a message it wrote or a
message it consumed from the stream. -/
inductive Event where
| send : Msg → Event
| recv : Msg → Event
deriving DecidableEq

/-- A garbled wire, holding the two labels (`ot.Wire` with fields
`Label0`, `Label1`); labels are taken as their byte representation
(`Label.Bytes()`). -/
structure Wire where
  Label0 : Bytes
  Label1 : Bytes
deriving DecidableEq

/-- Modelled from the spec: the `Garbled` result of `circuit.Garble`
(not among the sampled sources).  Per section 4.3 the garbler engine
yields, for each gate in circuit order, its table rows (empty for XOR),
and one label pair per wire; `Gates` is the ordered per-gate row lists
and `Wires` the per-wire label pairs. -/
structure Garbled where
  Gates : List (List Bytes)
  Wires : List Wire

/-- Modelled from the spec: the circuit object of section 4.2 as consumed
by `Garbler`: the total wire count and the bit widths of the `N1`
(Garbler input), `N2` (Evaluator input) and `N3` (output) groups. -/
structure Circuit where
  NumWires : Nat
  N1 : List Nat
  N2 : List Nat
  N3 : List Nat

/-- Errors the Garbler session can surface (Go returns `(nil, err)`). -/
inductive GErr where
| garbleFailed : GErr
| transportClosed : GErr
| otFailed : GErr
| unknownLabel : Bytes → Nat → GErr
deriving DecidableEq

/-- Modelled from the spec: the randomness and RSA trapdoor of the `ot`
package (section 4.5), abstracted as oracles.  `pubN`/`pubE` are the
session RSA public key, `randMsgs r` the random pair `(x0, x1)` of round
`r`, and `kdf v x` the blinding value `(v - x) ^ d mod n` used to mask a
label.  The failure modes of these calls (`OTFailed` in the spec) are
carried separately by the `OTFaults` oracles of the fallible model
below. -/
structure OTParams where
  pubN : Bytes
  pubE : Nat
  randMsgs : Nat → Bytes × Bytes
  kdf : Bytes → Bytes → Bytes

/-- Modelled from the spec: opcode `OP_OT` has wire value 1
(section 6.2). -/
def OP_OT : Nat := 1

/-- Modelled from the spec: opcode `OP_RESULT` has wire value 2
(section 6.2). -/
def OP_RESULT : Nat := 2

/-- Indexing `garbled.Wires[i]`, with an out-of-range default. -/
def wireAt (ws : List Wire) (i : Nat) : Wire :=
  ws.getD i ⟨[], []⟩

/-- The operation `big.Int.SetBit(x, i, b)` for bit values 0 and 1, on
naturals. -/
def setBit (x i b : Nat) : Nat :=
  if b = 1 then x ||| 2 ^ i
  else if x.testBit i then x - 2 ^ i else x

/-- Little-endian base-256 digits of a natural. -/
def natBytesLE (n : Nat) : Bytes :=
  if h : n = 0 then []
  else (n % 256) :: natBytesLE (n / 256)
termination_by n
decreasing_by exact Nat.div_lt_self (Nat.pos_of_ne_zero h) (by norm_num)

/-- The `big.Int.Bytes()` encoding: minimal big-endian bytes. -/
def natBytes (n : Nat) : Bytes :=
  (natBytesLE n).reverse

/-- Byte-wise XOR of two byte strings (truncating to the shorter). -/
def xorBytes (a b : Bytes) : Bytes :=
  List.zipWith (fun x y => x ^^^ y) a b

/-- Modelled from the spec: `IO.Size()` of an input/output partition is
the total declared bit width (sum of the group widths). -/
def ioSize (groups : List Nat) : Nat :=
  groups.sum

/-- Modelled from the spec: `N3.Split` (section 4.2) decodes a packed
little-endian integer into one value per output group, the first group
taking the lowest bits. -/
def ioSplit : List Nat → Nat → List Nat
| [], _ => []
| g :: gs, x => (x % 2 ^ g) :: ioSplit gs (x / 2 ^ g)

/-- Label selection for one `N1` group (`garbler.go` lines 81-93): for
bit position `i` of the group starting at wire `w0`, `Label1` if the
group input is present and its bit `i` is one, else `Label0`. -/
def selectGroup (input : Option Nat) (w0 : Nat) (ws : List Wire) (size : Nat) : List Bytes :=
  (List.range size).map fun i =>
    let wire := wireAt ws (w0 + i)
    match input with
    | some x => if x.testBit i then wire.Label1 else wire.Label0
    | none => wire.Label0

/-- The Garbler's own input labels (`garbler.go` lines 74-94): groups in
declared order, a running wire counter, missing inputs (`idx >=
len(inputs)` or a nil entry) selecting `Label0`. -/
def selectN1 : List Nat → List (Option Nat) → List Wire → Nat → List Bytes
| [], _, _, _ => []
| size :: groups, inputs, ws, w0 =>
  selectGroup (inputs.headD none) w0 ws size ++ selectN1 groups inputs.tail ws (w0 + size)

/-- Sending the garbled tables (`garbler.go` lines 54-71): for each gate,
in order of its index, the gate id as u32, the row count as u32, then the
framed rows. -/
def sendGates : Nat → List (List Bytes) → List Event
| _, [] => []
| id, rows :: rest =>
  Event.send (Msg.u32 id) :: Event.send (Msg.u32 rows.length) ::
    (rows.map fun d => Event.send (Msg.data d)) ++ sendGates (id + 1) rest

/-- The `OP_RESULT` label-reading loop (`garbler.go` lines 183-200):
reads `count` framed labels, decodes the label at loop index `i` against
the wire `base + i` (`Label0` gives bit 0, `Label1` bit 1, anything else
fails), and accumulates the result integer with `SetBit`.  Returns the
assembled integer and the unread remainder of the stream, plus the
receive events. -/
def readResult (ws : List Wire) (base : Nat) :
    Nat → Nat → Nat → List Msg → Except GErr (Nat × List Msg) × List Event
| 0, _, acc, s => (.ok (acc, s), [])
| _ + 1, _, _, [] => (.error .transportClosed, [])
| _ + 1, _, _, Msg.u32 _ :: _ => (.error .transportClosed, [])
| count + 1, i, acc, Msg.data label :: rest =>
  if label = (wireAt ws (base + i)).Label0 then
    let r := readResult ws base count (i + 1) (setBit acc i 0) rest
    (r.1, Event.recv (Msg.data label) :: r.2)
  else if label = (wireAt ws (base + i)).Label1 then
    let r := readResult ws base count (i + 1) (setBit acc i 1) rest
    (r.1, Event.recv (Msg.data label) :: r.2)
  else (.error (.unknownLabel label i), [Event.recv (Msg.data label)])

/-- The Garbler's message loop (`garbler.go` lines 138-207).  `ws` are the
garbled wires held by the OT sender, `eb` the index of the first
Evaluator input wire, `ob`/`oc` the first output wire and output bit
count, `round` the number of OT rounds performed so far and `acc` the
result accumulator.  `OP_OT` reads the advisory bit index, sends the
round's random pair, reads `v`, and sends the two masked labels of the
positionally determined wire (the wire selection is modelled from the
spec, section 4.5, as the `ot` package is not among the sampled sources);
`OP_RESULT` reads and decodes the output labels, sends the result bytes
and terminates; any other opcode falls through the `switch` and the loop
reads the next opcode.  Writes and the OT calls are reliable here; the
variant `garblerLoopF` below keeps their error returns
(`garbler.go` lines 149-152, 169-172 and the send errors). -/
def garblerLoop (otp : OTParams) (ws : List Wire) (eb ob oc : Nat) :
    Nat → Nat → List Msg → Except GErr Nat × List Event
| _, _, [] => (.error .transportClosed, [])
| _, _, Msg.data _ :: _ => (.error .transportClosed, [])
| round, acc, Msg.u32 op :: rest =>
  if op = OP_OT then
    match rest with
    | [] => (.error .transportClosed, [Event.recv (Msg.u32 op)])
    | Msg.data _ :: _ => (.error .transportClosed, [Event.recv (Msg.u32 op)])
    | Msg.u32 bit :: rest2 =>
      let x := otp.randMsgs round
      let wire := wireAt ws (eb + round)
      match rest2 with
      | [] => (.error .transportClosed,
          [Event.recv (Msg.u32 op), Event.recv (Msg.u32 bit),
           Event.send (Msg.data x.1), Event.send (Msg.data x.2)])
      | Msg.u32 _ :: _ => (.error .transportClosed,
          [Event.recv (Msg.u32 op), Event.recv (Msg.u32 bit),
           Event.send (Msg.data x.1), Event.send (Msg.data x.2)])
      | Msg.data v :: rest3 =>
        let m0p := xorBytes wire.Label0 (otp.kdf v x.1)
        let m1p := xorBytes wire.Label1 (otp.kdf v x.2)
        let r := garblerLoop otp ws eb ob oc (round + 1) acc rest3
        (r.1, Event.recv (Msg.u32 op) :: Event.recv (Msg.u32 bit) ::
          Event.send (Msg.data x.1) :: Event.send (Msg.data x.2) ::
          Event.recv (Msg.data v) :: Event.send (Msg.data m0p) ::
          Event.send (Msg.data m1p) :: r.2)
  else if op = OP_RESULT then
    match readResult ws ob oc 0 acc rest with
    | (.ok (res, _), evs) =>
      (.ok res, Event.recv (Msg.u32 op) :: evs ++ [Event.send (Msg.data (natBytes res))])
    | (.error e, evs) => (.error e, Event.recv (Msg.u32 op) :: evs)
  else
    let r := garblerLoop otp ws eb ob oc round acc rest
    (r.1, Event.recv (Msg.u32 op) :: r.2)

/-- The Garbler's own input labels as send events. -/
def n1Events (circ : Circuit) (inputs : List (Option Nat)) (ws : List Wire) : List Event :=
  (selectN1 circ.N1 inputs ws 0).map fun b => Event.send (Msg.data b)

/-- The RSA public key events (`garbler.go` lines 113-123). -/
def keyEvents (otp : OTParams) : List Event :=
  [Event.send (Msg.data otp.pubN), Event.send (Msg.u32 otp.pubE)]

/-- The `Garbler` function (`garbler.go` lines 37-219).  `garbleRes` is
the outcome of `circ.Garble(key)` (an oracle parameter: `Garble` is not
among the sampled sources), `inputs` the caller-supplied input integers
(`nil` entries as `none`), `otp` the OT oracles, and `stream` the typed
messages received from the Evaluator.  Returns the decoded outputs (or
the fatal error) and the event trace.  Writes, `ot.NewSender` and the
per-round OT calls are reliable here; the variant `GarblerF` below keeps
every error return of the source and agrees with this function when no
fault fires (`GarblerF_noFaults`). -/
def Garbler (circ : Circuit) (garbleRes : Except GErr Garbled)
    (inputs : List (Option Nat)) (otp : OTParams) (stream : List Msg) :
    Except GErr (List Nat) × List Event :=
  match garbleRes with
  | .error e => (.error e, [])
  | .ok garbled =>
    let lp := garblerLoop otp garbled.Wires (ioSize circ.N1)
        (circ.NumWires - ioSize circ.N3) (ioSize circ.N3) 0 0 stream
    match lp.1 with
    | .error e =>
      (.error e, sendGates 0 garbled.Gates ++ n1Events circ inputs garbled.Wires ++
        keyEvents otp ++ lp.2)
    | .ok res =>
      (.ok (ioSplit circ.N3 res), sendGates 0 garbled.Gates ++
        n1Events circ inputs garbled.Wires ++ keyEvents otp ++ lp.2)

/-! ### The fault-carrying model

`Garbler` above models the transport writes and the OT primitives as
reliable.  The source, however, checks an error return at every such
call: `ot.NewSender` (`garbler.go` lines 108-111), `sender.NewTransfer`
(lines 149-152), `xfer.Messages` (lines 169-172), and every
`sendUint32`/`sendData`.  The definitions below extend the model with
fault oracles for exactly those calls; `GarblerF` is the resulting
fallible embedding of the whole function, and `GarblerF_noFaults` below
proves that with no fault it coincides with `Garbler`, so the two models
agree on every fault-free session. -/

/-- Fault oracles for the fallible calls of the Garbler session:
`newSenderErr` for `ot.NewSender` (`garbler.go` lines 108-111),
`transferErr r` for `sender.NewTransfer` of round `r` (lines 149-152),
`messagesErr r` for `xfer.Messages` of round `r` (lines 169-172), and
`sendErr n` for the `n`-th write of the session (every
`sendUint32`/`sendData` error return). -/
structure OTFaults where
  newSenderErr : Option GErr
  transferErr : Nat → Option GErr
  messagesErr : Nat → Option GErr
  sendErr : Nat → Option GErr

/-- The fault assignment under which nothing fails. -/
def noFaults : OTFaults :=
  ⟨none, fun _ => none, fun _ => none, fun _ => none⟩

/-- The messages of the table transfer (`garbler.go` lines 54-71), as a
flat list: per gate the id, the row count, then the framed rows. -/
def gatesMsgs : Nat → List (List Bytes) → List Msg
| _, [] => []
| id, rows :: rest =>
  Msg.u32 id :: Msg.u32 rows.length :: rows.map Msg.data ++ gatesMsgs (id + 1) rest

/-- A batch of writes under the send-fault oracle: message `j` of the
batch is write number `n + j` of the session; the first failing write
aborts the batch (and the session) with its error, and nothing after it
is sent.  Returns the next write number on success. -/
def sendMsgsF (flt : OTFaults) : Nat → List Msg → Except GErr Nat × List Event
| n, [] => (.ok n, [])
| n, m :: ms =>
  match flt.sendErr n with
  | some e => (.error e, [])
  | none =>
    ((sendMsgsF flt (n + 1) ms).1, Event.send m :: (sendMsgsF flt (n + 1) ms).2)

/-- Abort-or-continue on a fault oracle: a reported error aborts with the
events so far, otherwise the computation continues. -/
def faultCheck {A : Type} (o : Option GErr) (evs : List Event)
    (k : Except GErr A × List Event) : Except GErr A × List Event :=
  match o with
  | some e => (.error e, evs)
  | none => k

/-- The message loop with fault oracles (`garbler.go` lines 138-207 with
every error return kept).  `sc` is the session write counter.  In an
`OP_OT` round the order of fallible calls is the source's:
`NewTransfer` after reading the bit index, the two `sendData` of
`x0, x1`, the read of `v`, `Messages`, then the two `sendData` of the
masked pair.  On `OP_RESULT` the final `sendData` of the result bytes
can also fail. -/
def garblerLoopF (otp : OTParams) (flt : OTFaults) (ws : List Wire) (eb ob oc : Nat) :
    Nat → Nat → Nat → List Msg → Except GErr Nat × List Event
| _, _, _, [] => (.error .transportClosed, [])
| _, _, _, Msg.data _ :: _ => (.error .transportClosed, [])
| sc, round, acc, Msg.u32 op :: rest =>
  if op = OP_OT then
    match rest with
    | [] => (.error .transportClosed, [Event.recv (Msg.u32 op)])
    | Msg.data _ :: _ => (.error .transportClosed, [Event.recv (Msg.u32 op)])
    | Msg.u32 bit :: rest2 =>
      faultCheck (flt.transferErr round)
        [Event.recv (Msg.u32 op), Event.recv (Msg.u32 bit)] <|
      faultCheck (flt.sendErr sc)
        [Event.recv (Msg.u32 op), Event.recv (Msg.u32 bit)] <|
      faultCheck (flt.sendErr (sc + 1))
        [Event.recv (Msg.u32 op), Event.recv (Msg.u32 bit),
         Event.send (Msg.data (otp.randMsgs round).1)] <|
      match rest2 with
      | [] => (.error .transportClosed,
          [Event.recv (Msg.u32 op), Event.recv (Msg.u32 bit),
           Event.send (Msg.data (otp.randMsgs round).1),
           Event.send (Msg.data (otp.randMsgs round).2)])
      | Msg.u32 _ :: _ => (.error .transportClosed,
          [Event.recv (Msg.u32 op), Event.recv (Msg.u32 bit),
           Event.send (Msg.data (otp.randMsgs round).1),
           Event.send (Msg.data (otp.randMsgs round).2)])
      | Msg.data v :: rest3 =>
        faultCheck (flt.messagesErr round)
          [Event.recv (Msg.u32 op), Event.recv (Msg.u32 bit),
           Event.send (Msg.data (otp.randMsgs round).1),
           Event.send (Msg.data (otp.randMsgs round).2),
           Event.recv (Msg.data v)] <|
        faultCheck (flt.sendErr (sc + 2))
          [Event.recv (Msg.u32 op), Event.recv (Msg.u32 bit),
           Event.send (Msg.data (otp.randMsgs round).1),
           Event.send (Msg.data (otp.randMsgs round).2),
           Event.recv (Msg.data v)] <|
        faultCheck (flt.sendErr (sc + 3))
          [Event.recv (Msg.u32 op), Event.recv (Msg.u32 bit),
           Event.send (Msg.data (otp.randMsgs round).1),
           Event.send (Msg.data (otp.randMsgs round).2),
           Event.recv (Msg.data v),
           Event.send (Msg.data (xorBytes (wireAt ws (eb + round)).Label0
             (otp.kdf v (otp.randMsgs round).1)))] <|
        ((garblerLoopF otp flt ws eb ob oc (sc + 4) (round + 1) acc rest3).1,
         Event.recv (Msg.u32 op) :: Event.recv (Msg.u32 bit) ::
           Event.send (Msg.data (otp.randMsgs round).1) ::
           Event.send (Msg.data (otp.randMsgs round).2) ::
           Event.recv (Msg.data v) ::
           Event.send (Msg.data (xorBytes (wireAt ws (eb + round)).Label0
             (otp.kdf v (otp.randMsgs round).1))) ::
           Event.send (Msg.data (xorBytes (wireAt ws (eb + round)).Label1
             (otp.kdf v (otp.randMsgs round).2))) ::
           (garblerLoopF otp flt ws eb ob oc (sc + 4) (round + 1) acc rest3).2)
  else if op = OP_RESULT then
    match readResult ws ob oc 0 acc rest with
    | (.ok (res, _), evs) =>
      faultCheck (flt.sendErr sc) (Event.recv (Msg.u32 op) :: evs)
        (.ok res,
         Event.recv (Msg.u32 op) :: evs ++ [Event.send (Msg.data (natBytes res))])
    | (.error e, evs) => (.error e, Event.recv (Msg.u32 op) :: evs)
  else
    ((garblerLoopF otp flt ws eb ob oc sc round acc rest).1,
     Event.recv (Msg.u32 op) :: (garblerLoopF otp flt ws eb ob oc sc round acc rest).2)

/-- The fallible `Garbler` (`garbler.go` lines 37-219 with every error
return kept): garbling, then the table writes, the input-label writes,
`ot.NewSender`, the public-key writes, then the message loop, each phase
aborting the session with its error.  With `noFaults` this coincides
with `Garbler` (theorem `GarblerF_noFaults`). -/
def GarblerF (circ : Circuit) (garbleRes : Except GErr Garbled)
    (inputs : List (Option Nat)) (otp : OTParams) (flt : OTFaults) (stream : List Msg) :
    Except GErr (List Nat) × List Event :=
  match garbleRes with
  | .error e => (.error e, [])
  | .ok garbled =>
    match sendMsgsF flt 0 (gatesMsgs 0 garbled.Gates) with
    | (.error e, evs1) => (.error e, evs1)
    | (.ok sc1, evs1) =>
      match sendMsgsF flt sc1 ((selectN1 circ.N1 inputs garbled.Wires 0).map Msg.data) with
      | (.error e, evs2) => (.error e, evs1 ++ evs2)
      | (.ok sc2, evs2) =>
        match flt.newSenderErr with
        | some e => (.error e, evs1 ++ evs2)
        | none =>
          match sendMsgsF flt sc2 [Msg.data otp.pubN, Msg.u32 otp.pubE] with
          | (.error e, evs3) => (.error e, evs1 ++ evs2 ++ evs3)
          | (.ok sc3, evs3) =>
            match (garblerLoopF otp flt garbled.Wires (ioSize circ.N1)
                (circ.NumWires - ioSize circ.N3) (ioSize circ.N3) sc3 0 0 stream).1 with
            | .error e => (.error e, evs1 ++ evs2 ++ evs3 ++
                (garblerLoopF otp flt garbled.Wires (ioSize circ.N1)
                  (circ.NumWires - ioSize circ.N3) (ioSize circ.N3) sc3 0 0 stream).2)
            | .ok res => (.ok (ioSplit circ.N3 res), evs1 ++ evs2 ++ evs3 ++
                (garblerLoopF otp flt garbled.Wires (ioSize circ.N1)
                  (circ.NumWires - ioSize circ.N3) (ioSize circ.N3) sc3 0 0 stream).2)

/-! ### Specification-side definitions used to state the claims -/

/-- Decoding of a received output label against a wire, as the spec
states it: bit 0 when it equals `Label0`, bit 1 when it equals `Label1`,
undefined otherwise. -/
def decodeLabel (wire : Wire) (label : Bytes) : Option Nat :=
  if label = wire.Label0 then some 0
  else if label = wire.Label1 then some 1
  else none

/-- Little-endian assembly of the decoded output labels: the `i`-th label
is decoded against the wire `base + i` and sets bit `i` of the
accumulator; `none` when some label decodes to neither label. -/
def assembleFrom (ws : List Wire) (base : Nat) : Nat → Nat → List Bytes → Option Nat
| _, acc, [] => some acc
| i, acc, l :: ls =>
  match decodeLabel (wireAt ws (base + i)) l with
  | some b => assembleFrom ws base (i + 1) (setBit acc i b) ls
  | none => none

/-- The messages of one well-formed OT round from the Evaluator: the
`OP_OT` opcode, the advisory bit index, and the blinded value `v`. -/
def otRoundMsgs (p : Nat × Bytes) : List Msg :=
  [Msg.u32 OP_OT, Msg.u32 p.1, Msg.data p.2]

/-- The messages of a sequence of well-formed OT rounds. -/
def otRoundsMsgs (ps : List (Nat × Bytes)) : List Msg :=
  ps.flatMap otRoundMsgs

/-- The events of one OT round, round number `round`: the two reads, the
random pair, the read of `v`, then the masked labels of the wire
`eb + round` — determined by the round position, not by the advisory bit
index `p.1`, which occurs only in a receive event. -/
def otRoundEvents (ws : List Wire) (eb : Nat) (otp : OTParams) (round : Nat)
    (p : Nat × Bytes) : List Event :=
  [Event.recv (Msg.u32 OP_OT), Event.recv (Msg.u32 p.1),
   Event.send (Msg.data (otp.randMsgs round).1),
   Event.send (Msg.data (otp.randMsgs round).2),
   Event.recv (Msg.data p.2),
   Event.send (Msg.data (xorBytes (wireAt ws (eb + round)).Label0
     (otp.kdf p.2 (otp.randMsgs round).1))),
   Event.send (Msg.data (xorBytes (wireAt ws (eb + round)).Label1
     (otp.kdf p.2 (otp.randMsgs round).2)))]

/-- The events of a sequence of OT rounds, numbered from `round`. -/
def otRoundsEvents (ws : List Wire) (eb : Nat) (otp : OTParams) :
    Nat → List (Nat × Bytes) → List Event
| _, [] => []
| round, p :: ps => otRoundEvents ws eb otp round p ++ otRoundsEvents ws eb otp (round + 1) ps

/-- The messages sent during one garbled-table transfer, as the spec
words it: for each gate in order, `(gateId, rowCount, rows[])`, with the
gate id taken from the enumeration of the gates. -/
def gateTableMsgs (gates : List (List Bytes)) : List Event :=
  gates.enum.flatMap fun p =>
    Event.send (Msg.u32 p.1) :: Event.send (Msg.u32 p.2.length) ::
      p.2.map fun d => Event.send (Msg.data d)

/-- The send events of a trace. -/
def sentEvents (evs : List Event) : List Event :=
  evs.filter fun e => match e with | .send _ => true | .recv _ => false

/-- The wire offset of bit 0 of the `idx`-th `N1` group: the total width
of the preceding groups. -/
def n1Offset (n1 : List Nat) (idx : Nat) : Nat :=
  ioSize (n1.take idx)

/-- The label the spec says the Garbler sends for bit `i` of a group:
`Label1` when the group's input is present with bit `i` set, otherwise
`Label0`. -/
def selLabel (input : Option Nat) (wire : Wire) (i : Nat) : Bytes :=
  match input with
  | some x => if x.testBit i then wire.Label1 else wire.Label0
  | none => wire.Label0

/-- Result-phase events: any number of received labels, optionally closed
by the single framed result send. -/
inductive ResultEvents : List Event → Prop where
| nil : ResultEvents []
| fin (d : Bytes) : ResultEvents [Event.send (Msg.data d)]
| recv (d : Bytes) (t : List Event) : ResultEvents t →
    ResultEvents (Event.recv (Msg.data d) :: t)

/-- The shape of the Garbler's message-loop trace: unknown opcodes are
single reads, each OT round reads the opcode and bit index, sends
`x0, x1`, reads `v` and only then sends the masked pair (possibly
truncated by a transport failure), and a result phase, which ends the
loop, comes last. -/
inductive LoopShape : List Event → Prop where
| nil : LoopShape []
| other (op : Nat) (t : List Event) : op ≠ OP_OT → op ≠ OP_RESULT → LoopShape t →
    LoopShape (Event.recv (Msg.u32 op) :: t)
| otStart : LoopShape [Event.recv (Msg.u32 OP_OT)]
| otHalf (b : Nat) (x0 x1 : Bytes) :
    LoopShape [Event.recv (Msg.u32 OP_OT), Event.recv (Msg.u32 b),
      Event.send (Msg.data x0), Event.send (Msg.data x1)]
| otRound (b : Nat) (x0 x1 v m0 m1 : Bytes) (t : List Event) : LoopShape t →
    LoopShape (Event.recv (Msg.u32 OP_OT) :: Event.recv (Msg.u32 b) ::
      Event.send (Msg.data x0) :: Event.send (Msg.data x1) ::
      Event.recv (Msg.data v) :: Event.send (Msg.data m0) ::
      Event.send (Msg.data m1) :: t)
| result (t : List Event) : ResultEvents t →
    LoopShape (Event.recv (Msg.u32 OP_RESULT) :: t)
/-! ### Unfolding lemmas for the message loop -/

theorem decodeLabel_zero (w : Wire) (l : Bytes) (h : l = w.Label0) :
    decodeLabel w l = some 0 := by
  unfold decodeLabel
  rw [if_pos h]

theorem decodeLabel_one (w : Wire) (l : Bytes) (h0 : l ≠ w.Label0) (h1 : l = w.Label1) :
    decodeLabel w l = some 1 := by
  unfold decodeLabel
  rw [if_neg h0, if_pos h1]

theorem decodeLabel_none (w : Wire) (l : Bytes) (h0 : l ≠ w.Label0) (h1 : l ≠ w.Label1) :
    decodeLabel w l = none := by
  unfold decodeLabel
  rw [if_neg h0, if_neg h1]

theorem assembleFrom_cons (ws : List Wire) (base i acc b : Nat) (l : Bytes) (ls : List Bytes)
    (h : decodeLabel (wireAt ws (base + i)) l = some b) :
    assembleFrom ws base i acc (l :: ls) = assembleFrom ws base (i + 1) (setBit acc i b) ls := by
  rw [assembleFrom.eq_def]
  simp only [h]

theorem readResult_cons_zero (ws : List Wire) (base count i acc : Nat) (label : Bytes)
    (rest : List Msg) (h0 : label = (wireAt ws (base + i)).Label0) :
    readResult ws base (count + 1) i acc (Msg.data label :: rest)
      = ((readResult ws base count (i + 1) (setBit acc i 0) rest).1,
         Event.recv (Msg.data label) ::
           (readResult ws base count (i + 1) (setBit acc i 0) rest).2) := by
  rw [readResult.eq_def]
  simp only []
  rw [if_pos h0]

theorem readResult_cons_one (ws : List Wire) (base count i acc : Nat) (label : Bytes)
    (rest : List Msg) (h0 : label ≠ (wireAt ws (base + i)).Label0)
    (h1 : label = (wireAt ws (base + i)).Label1) :
    readResult ws base (count + 1) i acc (Msg.data label :: rest)
      = ((readResult ws base count (i + 1) (setBit acc i 1) rest).1,
         Event.recv (Msg.data label) ::
           (readResult ws base count (i + 1) (setBit acc i 1) rest).2) := by
  rw [readResult.eq_def]
  simp only []
  rw [if_neg h0, if_pos h1]

theorem readResult_cons_bad (ws : List Wire) (base count i acc : Nat) (label : Bytes)
    (rest : List Msg) (h0 : label ≠ (wireAt ws (base + i)).Label0)
    (h1 : label ≠ (wireAt ws (base + i)).Label1) :
    readResult ws base (count + 1) i acc (Msg.data label :: rest)
      = (.error (.unknownLabel label i), [Event.recv (Msg.data label)]) := by
  rw [readResult.eq_def]
  simp only []
  rw [if_neg h0, if_neg h1]

theorem garblerLoop_ot (otp : OTParams) (ws : List Wire) (eb ob oc round acc b : Nat)
    (v : Bytes) (rest : List Msg) :
    garblerLoop otp ws eb ob oc round acc (Msg.u32 OP_OT :: Msg.u32 b :: Msg.data v :: rest)
      = ((garblerLoop otp ws eb ob oc (round + 1) acc rest).1,
         otRoundEvents ws eb otp round (b, v) ++
           (garblerLoop otp ws eb ob oc (round + 1) acc rest).2) := by
  simp [garblerLoop, otRoundEvents]

theorem garblerLoop_other (otp : OTParams) (ws : List Wire) (eb ob oc round acc op : Nat)
    (rest : List Msg) (h1 : op ≠ OP_OT) (h2 : op ≠ OP_RESULT) :
    garblerLoop otp ws eb ob oc round acc (Msg.u32 op :: rest)
      = ((garblerLoop otp ws eb ob oc round acc rest).1,
         Event.recv (Msg.u32 op) :: (garblerLoop otp ws eb ob oc round acc rest).2) := by
  rw [garblerLoop.eq_def]
  simp only []
  rw [if_neg h1, if_neg h2]

theorem garblerLoop_result_ok (otp : OTParams) (ws : List Wire) (eb ob oc round acc : Nat)
    (rest s : List Msg) (res : Nat) (evs : List Event)
    (h : readResult ws ob oc 0 acc rest = (.ok (res, s), evs)) :
    garblerLoop otp ws eb ob oc round acc (Msg.u32 OP_RESULT :: rest)
      = (.ok res, Event.recv (Msg.u32 OP_RESULT) :: evs ++
          [Event.send (Msg.data (natBytes res))]) := by
  rw [garblerLoop.eq_def]
  simp only []
  rw [if_neg (by decide : ¬ OP_RESULT = OP_OT)]
  simp only [if_true]
  rw [h]

theorem garblerLoop_result_err (otp : OTParams) (ws : List Wire) (eb ob oc round acc : Nat)
    (rest : List Msg) (e : GErr) (evs : List Event)
    (h : readResult ws ob oc 0 acc rest = (.error e, evs)) :
    garblerLoop otp ws eb ob oc round acc (Msg.u32 OP_RESULT :: rest)
      = (.error e, Event.recv (Msg.u32 OP_RESULT) :: evs) := by
  rw [garblerLoop.eq_def]
  simp only []
  rw [if_neg (by decide : ¬ OP_RESULT = OP_OT)]
  simp only [if_true]
  rw [h]

theorem garblerLoop_otRounds (otp : OTParams) (ws : List Wire) (eb ob oc : Nat) :
    ∀ (ps : List (Nat × Bytes)) (round acc : Nat) (tail : List Msg),
    garblerLoop otp ws eb ob oc round acc (otRoundsMsgs ps ++ tail)
      = ((garblerLoop otp ws eb ob oc (round + ps.length) acc tail).1,
         otRoundsEvents ws eb otp round ps ++
           (garblerLoop otp ws eb ob oc (round + ps.length) acc tail).2) := by
  intro ps
  induction ps with
  | nil => intro round acc tail; simp [otRoundsMsgs, otRoundsEvents]
  | cons p ps ih =>
    intro round acc tail
    have hmsgs : otRoundsMsgs (p :: ps) ++ tail
        = Msg.u32 OP_OT :: Msg.u32 p.1 :: Msg.data p.2 :: (otRoundsMsgs ps ++ tail) := by
      simp [otRoundsMsgs, otRoundMsgs]
    rw [hmsgs, garblerLoop_ot, ih (round + 1) acc tail]
    simp [otRoundsEvents, Nat.add_assoc, Nat.add_comm 1 ps.length]

/-! ### Lemmas about the result-reading loop -/

theorem readResult_ok (ws : List Wire) (base : Nat) :
    ∀ (labels : List Bytes) (i acc r : Nat) (junk : List Msg),
    assembleFrom ws base i acc labels = some r →
    readResult ws base labels.length i acc (labels.map Msg.data ++ junk)
      = (.ok (r, junk), labels.map fun l => Event.recv (Msg.data l)) := by
  intro labels
  induction labels with
  | nil =>
    intro i acc r junk h
    simp [assembleFrom] at h
    subst h
    simp [readResult]
  | cons l ls ih =>
    intro i acc r junk h
    by_cases h0 : l = (wireAt ws (base + i)).Label0
    · rw [assembleFrom_cons ws base i acc 0 l ls (decodeLabel_zero _ _ h0)] at h
      have step := readResult_cons_zero ws base ls.length i acc l
        (ls.map Msg.data ++ junk) h0
      simp only [List.length_cons, List.map_cons, List.cons_append]
      rw [step, ih (i + 1) (setBit acc i 0) r junk h]
    · by_cases h1 : l = (wireAt ws (base + i)).Label1
      · rw [assembleFrom_cons ws base i acc 1 l ls (decodeLabel_one _ _ h0 h1)] at h
        have step := readResult_cons_one ws base ls.length i acc l
          (ls.map Msg.data ++ junk) h0 h1
        simp only [List.length_cons, List.map_cons, List.cons_append]
        rw [step, ih (i + 1) (setBit acc i 1) r junk h]
      · rw [assembleFrom.eq_def] at h
        simp only [decodeLabel_none _ _ h0 h1] at h
        exact Option.noConfusion h

theorem readResult_events (ws : List Wire) (base : Nat) :
    ∀ (count i acc : Nat) (s : List Msg) (tail : List Event), ResultEvents tail →
    ResultEvents ((readResult ws base count i acc s).2 ++ tail) := by
  intro count
  induction count with
  | zero => intro i acc s tail h; simpa [readResult] using h
  | succ n ih =>
    intro i acc s tail h
    match s with
    | [] => simpa [readResult] using h
    | Msg.u32 _ :: _ => simpa [readResult] using h
    | Msg.data label :: rest =>
      by_cases h0 : label = (wireAt ws (base + i)).Label0
      · rw [readResult_cons_zero ws base n i acc label rest h0]
        simp only [List.cons_append]
        exact ResultEvents.recv _ _ (ih (i + 1) (setBit acc i 0) rest tail h)
      · by_cases h1 : label = (wireAt ws (base + i)).Label1
        · rw [readResult_cons_one ws base n i acc label rest h0 h1]
          simp only [List.cons_append]
          exact ResultEvents.recv _ _ (ih (i + 1) (setBit acc i 1) rest tail h)
        · rw [readResult_cons_bad ws base n i acc label rest h0 h1]
          simp only [List.cons_append, List.nil_append]
          exact ResultEvents.recv _ _ h

theorem readResult_err (ws : List Wire) (base : Nat) :
    ∀ (labels : List Bytes) (k count i acc : Nat) (junk : List Msg),
    k < labels.length → k < count →
    (∀ j, j < k → decodeLabel (wireAt ws (base + i + j)) (labels.getD j []) ≠ none) →
    decodeLabel (wireAt ws (base + i + k)) (labels.getD k []) = none →
    (readResult ws base count i acc (labels.map Msg.data ++ junk)).1
      = .error (.unknownLabel (labels.getD k []) (i + k)) := by
  intro labels
  induction labels with
  | nil => intro k count i acc junk hk; exact absurd hk (by simp)
  | cons l ls ih =>
    intro k count i acc junk hk hc hpre hbad
    match count, hc with
    | count + 1, _ =>
      match k with
      | 0 =>
        simp only [List.getD_cons_zero, Nat.add_zero] at hbad
        have h0 : l ≠ (wireAt ws (base + i)).Label0 := by
          intro h
          rw [decodeLabel_zero _ _ h] at hbad
          exact Option.noConfusion hbad
        have h1 : l ≠ (wireAt ws (base + i)).Label1 := by
          intro h
          by_cases h0b : l = (wireAt ws (base + i)).Label0
          · exact h0 h0b
          · rw [decodeLabel_one _ _ h0b h] at hbad
            exact Option.noConfusion hbad
        simp only [List.map_cons, List.cons_append]
        rw [readResult_cons_bad ws base count i acc l (ls.map Msg.data ++ junk) h0 h1]
        simp
      | k + 1 =>
        have hhead : decodeLabel (wireAt ws (base + i)) l ≠ none := by
          have := hpre 0 (Nat.succ_pos k)
          simpa using this
        have hstep : ∀ j, j < k →
            decodeLabel (wireAt ws (base + (i + 1) + j)) (ls.getD j []) ≠ none := by
          intro j hj
          have := hpre (j + 1) (by omega)
          have harith : base + i + (j + 1) = base + (i + 1) + j := by omega
          simpa [harith] using this
        have hbad2 : decodeLabel (wireAt ws (base + (i + 1) + k)) (ls.getD k []) = none := by
          have harith : base + i + (k + 1) = base + (i + 1) + k := by omega
          simpa [harith] using hbad
        have harith2 : i + 1 + k = i + (k + 1) := by omega
        have hk2 : k < ls.length := by simpa using hk
        by_cases h0 : l = (wireAt ws (base + i)).Label0
        · have hres := ih k count (i + 1) (setBit acc i 0) junk hk2 (by omega) hstep hbad2
          simp only [List.map_cons, List.cons_append]
          rw [readResult_cons_zero ws base count i acc l (ls.map Msg.data ++ junk) h0]
          simp only [List.getD_cons_succ]
          rw [← harith2]
          exact hres
        · by_cases h1 : l = (wireAt ws (base + i)).Label1
          · have hres := ih k count (i + 1) (setBit acc i 1) junk hk2 (by omega) hstep hbad2
            simp only [List.map_cons, List.cons_append]
            rw [readResult_cons_one ws base count i acc l (ls.map Msg.data ++ junk) h0 h1]
            simp only [List.getD_cons_succ]
            rw [← harith2]
            exact hres
          · exact absurd (decodeLabel_none _ _ h0 h1) hhead

theorem assembleFrom_isSome (ws : List Wire) (base : Nat) :
    ∀ (labels : List Bytes) (i acc : Nat),
    (∀ j, j < labels.length → decodeLabel (wireAt ws (base + i + j)) (labels.getD j []) ≠ none) →
    ∃ r, assembleFrom ws base i acc labels = some r := by
  intro labels
  induction labels with
  | nil => intro i acc _; exact ⟨acc, rfl⟩
  | cons l ls ih =>
    intro i acc hdec
    have hhead : decodeLabel (wireAt ws (base + i)) l ≠ none := by
      have := hdec 0 (Nat.succ_pos _)
      simpa using this
    match hb : decodeLabel (wireAt ws (base + i)) l with
    | none => exact absurd hb hhead
    | some b =>
      have hstep : ∀ j, j < ls.length →
          decodeLabel (wireAt ws (base + (i + 1) + j)) (ls.getD j []) ≠ none := by
        intro j hj
        have := hdec (j + 1) (by simpa using hj)
        have harith : base + i + (j + 1) = base + (i + 1) + j := by omega
        simpa [harith] using this
      obtain ⟨r, hr⟩ := ih (i + 1) (setBit acc i b) hstep
      refine ⟨r, ?_⟩
      rw [assembleFrom_cons ws base i acc b l ls hb]
      exact hr

/-! ### Further structural lemmas -/

theorem ioSplit_length : ∀ (gs : List Nat) (x : Nat), (ioSplit gs x).length = gs.length := by
  intro gs
  induction gs with
  | nil => intro x; rfl
  | cons g gs ih => intro x; simp [ioSplit, ih]

theorem Garbler_fst (circ : Circuit) (g : Garbled) (inputs : List (Option Nat))
    (otp : OTParams) (stream : List Msg) :
    (Garbler circ (.ok g) inputs otp stream).1
      = match (garblerLoop otp g.Wires (ioSize circ.N1)
          (circ.NumWires - ioSize circ.N3) (ioSize circ.N3) 0 0 stream).1 with
        | .error e => .error e
        | .ok res => .ok (ioSplit circ.N3 res) := by
  cases h : (garblerLoop otp g.Wires (ioSize circ.N1)
      (circ.NumWires - ioSize circ.N3) (ioSize circ.N3) 0 0 stream).1 <;>
    simp [Garbler, h]

theorem Garbler_snd (circ : Circuit) (g : Garbled) (inputs : List (Option Nat))
    (otp : OTParams) (stream : List Msg) :
    (Garbler circ (.ok g) inputs otp stream).2
      = sendGates 0 g.Gates ++ n1Events circ inputs g.Wires ++ keyEvents otp ++
          (garblerLoop otp g.Wires (ioSize circ.N1)
            (circ.NumWires - ioSize circ.N3) (ioSize circ.N3) 0 0 stream).2 := by
  cases h : (garblerLoop otp g.Wires (ioSize circ.N1)
      (circ.NumWires - ioSize circ.N3) (ioSize circ.N3) 0 0 stream).1 <;>
    simp [Garbler, h]

/-! ### Lemmas about input-label selection -/

theorem selectGroup_length (input : Option Nat) (w0 : Nat) (ws : List Wire) (size : Nat) :
    (selectGroup input w0 ws size).length = size := by
  simp [selectGroup]

theorem selectGroup_getD (input : Option Nat) (w0 : Nat) (ws : List Wire) (size i : Nat)
    (h : i < size) :
    (selectGroup input w0 ws size).getD i [] = selLabel input (wireAt ws (w0 + i)) i := by
  simp [selectGroup, selLabel, List.getD, List.getElem?_map, List.getElem?_range, h]

theorem selectN1_length : ∀ (n1 : List Nat) (inputs : List (Option Nat)) (ws : List Wire)
    (w0 : Nat), (selectN1 n1 inputs ws w0).length = ioSize n1 := by
  intro n1
  induction n1 with
  | nil => intro inputs ws w0; rfl
  | cons s gs ih =>
    intro inputs ws w0
    simp [selectN1, selectGroup_length, ioSize, ih]

theorem getD_headD (inputs : List (Option Nat)) : inputs.getD 0 none = inputs.headD none := by
  cases inputs <;> rfl

theorem tail_getD (inputs : List (Option Nat)) (idx : Nat) :
    inputs.tail.getD idx none = inputs.getD (idx + 1) none := by
  cases inputs <;> simp [List.getD]

theorem n1Offset_zero (n1 : List Nat) : n1Offset n1 0 = 0 := by
  simp [n1Offset, ioSize]

theorem n1Offset_succ (s : Nat) (gs : List Nat) (idx : Nat) :
    n1Offset (s :: gs) (idx + 1) = s + n1Offset gs idx := by
  simp [n1Offset, ioSize, List.take]

theorem selectN1_getD : ∀ (n1 : List Nat) (idx : Nat) (inputs : List (Option Nat))
    (ws : List Wire) (w0 i : Nat), idx < n1.length → i < n1.getD idx 0 →
    (selectN1 n1 inputs ws w0).getD (n1Offset n1 idx + i) []
      = selLabel (inputs.getD idx none) (wireAt ws (w0 + n1Offset n1 idx + i)) i := by
  intro n1
  induction n1 with
  | nil => intro idx inputs ws w0 i hidx; exact absurd hidx (by simp)
  | cons s gs ih =>
    intro idx inputs ws w0 i hidx hi
    match idx with
    | 0 =>
      rw [n1Offset_zero]
      simp only [List.getD_cons_zero] at hi
      simp only [Nat.zero_add, selectN1]
      rw [List.getD_append _ _ _ _ (by rw [selectGroup_length]; exact hi)]
      rw [selectGroup_getD _ _ _ _ _ hi, getD_headD, Nat.add_zero]
    | idx + 1 =>
      rw [n1Offset_succ]
      simp only [List.getD_cons_succ] at hi
      have hidx2 : idx < gs.length := by simpa using hidx
      simp only [selectN1]
      have hlen : (selectGroup (inputs.headD none) w0 ws s).length = s :=
        selectGroup_length _ _ _ _
      rw [List.getD_append_right _ _ _ _ (by rw [hlen]; omega)]
      rw [hlen]
      have harith : s + n1Offset gs idx + i - s = n1Offset gs idx + i := by omega
      rw [harith]
      have := ih idx inputs.tail ws (w0 + s) i hidx2 hi
      rw [this, tail_getD]
      have harith2 : w0 + s + n1Offset gs idx + i = w0 + (s + n1Offset gs idx) + i := by omega
      rw [harith2]

theorem selectGroup_zero_input (w0 : Nat) (ws : List Wire) (size : Nat) :
    selectGroup (some 0) w0 ws size = selectGroup none w0 ws size := by
  simp [selectGroup, Nat.zero_testBit]

theorem selectN1_replicate_zero : ∀ (n1 : List Nat) (k : Nat) (ws : List Wire) (w0 : Nat),
    selectN1 n1 (List.replicate k (some 0)) ws w0 = selectN1 n1 [] ws w0 := by
  intro n1
  induction n1 with
  | nil => intro k ws w0; rfl
  | cons s gs ih =>
    intro k ws w0
    match k with
    | 0 => rfl
    | k + 1 =>
      simp only [List.replicate, selectN1, List.headD, List.tail_cons]
      rw [selectGroup_zero_input, ih k]
      rfl

theorem selectN1_pad : ∀ (n1 : List Nat) (inputs : List (Option Nat)) (k : Nat)
    (ws : List Wire) (w0 : Nat),
    selectN1 n1 (inputs ++ List.replicate k (some 0)) ws w0 = selectN1 n1 inputs ws w0 := by
  intro n1
  induction n1 with
  | nil => intro inputs k ws w0; rfl
  | cons s gs ih =>
    intro inputs k ws w0
    match inputs with
    | [] => simpa using selectN1_replicate_zero (s :: gs) k ws w0
    | a :: as =>
      simp only [List.cons_append, selectN1, List.headD, List.tail_cons]
      rw [ih as k]

/-! ### The table transfer in spec form -/

theorem sendGates_enumFrom : ∀ (gates : List (List Bytes)) (id : Nat),
    sendGates id gates = (List.enumFrom id gates).flatMap fun p =>
      Event.send (Msg.u32 p.1) :: Event.send (Msg.u32 p.2.length) ::
        p.2.map fun d => Event.send (Msg.data d) := by
  intro gates
  induction gates with
  | nil => intro id; rfl
  | cons g gs ih =>
    intro id
    simp only [sendGates, List.enumFrom, List.flatMap_cons, ih (id + 1)]

theorem sendGates_eq_gateTableMsgs (gates : List (List Bytes)) :
    sendGates 0 gates = gateTableMsgs gates := by
  rw [gateTableMsgs, List.enum, sendGates_enumFrom]

/-! ### The shape of the message-loop trace -/

theorem loopShape_garblerLoop (otp : OTParams) (ws : List Wire) (eb ob oc : Nat) :
    ∀ (s : List Msg) (round acc : Nat),
    LoopShape (garblerLoop otp ws eb ob oc round acc s).2 := by
  have key : ∀ (n : Nat) (s : List Msg), s.length ≤ n → ∀ (round acc : Nat),
      LoopShape (garblerLoop otp ws eb ob oc round acc s).2 := by
    intro n
    induction n with
    | zero =>
      intro s hs round acc
      match s with
      | [] => simp only [garblerLoop]; exact LoopShape.nil
      | _ :: _ => exact absurd hs (by simp)
    | succ n ih =>
      intro s hs round acc
      match s with
      | [] => simp only [garblerLoop]; exact LoopShape.nil
      | Msg.data d :: rest => simp only [garblerLoop]; exact LoopShape.nil
      | Msg.u32 op :: rest =>
        by_cases hop : op = OP_OT
        · subst hop
          match rest with
          | [] =>
            simp only [garblerLoop, if_pos rfl]
            exact LoopShape.otStart
          | Msg.data d :: rest2 =>
            simp only [garblerLoop, if_pos rfl]
            exact LoopShape.otStart
          | Msg.u32 b :: rest2 =>
            match rest2 with
            | [] =>
              simp only [garblerLoop, if_pos rfl]
              exact LoopShape.otHalf b _ _
            | Msg.u32 _ :: _ =>
              simp only [garblerLoop, if_pos rfl]
              exact LoopShape.otHalf b _ _
            | Msg.data v :: rest3 =>
              rw [garblerLoop_ot]
              simp only [otRoundEvents, List.cons_append, List.nil_append]
              refine LoopShape.otRound b _ _ v _ _ _ ?_
              exact ih rest3 (by simp at hs; omega) (round + 1) acc
        · by_cases hop2 : op = OP_RESULT
          · subst hop2
            rcases hr : readResult ws ob oc 0 acc rest with ⟨r, evs⟩
            match r with
            | .ok (res, s2) =>
              rw [garblerLoop_result_ok otp ws eb ob oc round acc rest s2 res evs hr]
              refine LoopShape.result _ ?_
              have hres := readResult_events ws ob oc 0 acc rest
                [Event.send (Msg.data (natBytes res))] (ResultEvents.fin _)
              rw [hr] at hres
              exact hres
            | .error e =>
              rw [garblerLoop_result_err otp ws eb ob oc round acc rest e evs hr]
              refine LoopShape.result _ ?_
              have hres := readResult_events ws ob oc 0 acc rest [] ResultEvents.nil
              rw [hr] at hres
              simpa using hres
          · rw [garblerLoop_other otp ws eb ob oc round acc op rest hop hop2]
            exact LoopShape.other op _ hop hop2 (ih rest (by simp at hs; omega) round acc)
  intro s round acc
  exact key s.length s le_rfl round acc

/-! ### Lemmas about the fault-carrying model -/

theorem sendMsgsF_ok_of_none (flt : OTFaults) (h : ∀ n, flt.sendErr n = none) :
    ∀ (ms : List Msg) (n : Nat),
    sendMsgsF flt n ms = (.ok (n + ms.length), ms.map Event.send) := by
  intro ms
  induction ms with
  | nil => intro n; simp [sendMsgsF]
  | cons m ms ih =>
    intro n
    rw [sendMsgsF.eq_def]
    simp only [h n]
    rw [ih (n + 1)]
    have harith : n + 1 + ms.length = n + (m :: ms).length := by simp; omega
    simp [harith]

theorem sendMsgsF_noFaults : ∀ (ms : List Msg) (n : Nat),
    sendMsgsF noFaults n ms = (.ok (n + ms.length), ms.map Event.send) :=
  sendMsgsF_ok_of_none noFaults fun _ => rfl

theorem sendMsgsF_err : ∀ (ms : List Msg) (flt : OTFaults) (n k : Nat) (e : GErr),
    k < ms.length → (∀ j, j < k → flt.sendErr (n + j) = none) →
    flt.sendErr (n + k) = some e →
    (sendMsgsF flt n ms).1 = .error e := by
  intro ms
  induction ms with
  | nil => intro flt n k e hk; exact absurd hk (by simp)
  | cons m ms ih =>
    intro flt n k e hk hpre hke
    match k with
    | 0 =>
      simp only [Nat.add_zero] at hke
      rw [sendMsgsF.eq_def]
      simp only [hke]
    | k + 1 =>
      have h0 : flt.sendErr n = none := by simpa using hpre 0 (Nat.succ_pos k)
      rw [sendMsgsF.eq_def]
      simp only [h0]
      refine ih flt (n + 1) k e (by simpa using hk) ?_ ?_
      · intro j hj
        have := hpre (j + 1) (by omega)
        have harith : n + (j + 1) = n + 1 + j := by omega
        rw [harith] at this
        exact this
      · have harith : n + (k + 1) = n + 1 + k := by omega
        rw [harith] at hke
        exact hke

theorem gatesMsgs_map_send : ∀ (gates : List (List Bytes)) (id : Nat),
    (gatesMsgs id gates).map Event.send = sendGates id gates := by
  intro gates
  induction gates with
  | nil => intro id; rfl
  | cons rows rest ih =>
    intro id
    simp [gatesMsgs, sendGates, ih (id + 1), List.map_map]

theorem garblerLoopF_other (otp : OTParams) (flt : OTFaults) (ws : List Wire)
    (eb ob oc sc round acc op : Nat) (rest : List Msg)
    (h1 : op ≠ OP_OT) (h2 : op ≠ OP_RESULT) :
    garblerLoopF otp flt ws eb ob oc sc round acc (Msg.u32 op :: rest)
      = ((garblerLoopF otp flt ws eb ob oc sc round acc rest).1,
         Event.recv (Msg.u32 op) ::
           (garblerLoopF otp flt ws eb ob oc sc round acc rest).2) := by
  rw [garblerLoopF.eq_def]
  simp only []
  rw [if_neg h1, if_neg h2]

theorem garblerLoopF_transfer_err (otp : OTParams) (flt : OTFaults) (ws : List Wire)
    (eb ob oc sc round acc b : Nat) (rest : List Msg) (e : GErr)
    (h : flt.transferErr round = some e) :
    garblerLoopF otp flt ws eb ob oc sc round acc (Msg.u32 OP_OT :: Msg.u32 b :: rest)
      = (.error e, [Event.recv (Msg.u32 OP_OT), Event.recv (Msg.u32 b)]) := by
  match rest with
  | [] => simp [garblerLoopF, faultCheck, h]
  | Msg.u32 c :: r => simp [garblerLoopF, faultCheck, h]
  | Msg.data d :: r => simp [garblerLoopF, faultCheck, h]

theorem garblerLoopF_x0_err (otp : OTParams) (flt : OTFaults) (ws : List Wire)
    (eb ob oc sc round acc b : Nat) (rest : List Msg) (e : GErr)
    (h1 : flt.transferErr round = none) (h2 : flt.sendErr sc = some e) :
    garblerLoopF otp flt ws eb ob oc sc round acc (Msg.u32 OP_OT :: Msg.u32 b :: rest)
      = (.error e, [Event.recv (Msg.u32 OP_OT), Event.recv (Msg.u32 b)]) := by
  match rest with
  | [] => simp [garblerLoopF, faultCheck, h1, h2]
  | Msg.u32 c :: r => simp [garblerLoopF, faultCheck, h1, h2]
  | Msg.data d :: r => simp [garblerLoopF, faultCheck, h1, h2]

theorem garblerLoopF_messages_err (otp : OTParams) (flt : OTFaults) (ws : List Wire)
    (eb ob oc sc round acc b : Nat) (v : Bytes) (rest : List Msg) (e : GErr)
    (h1 : flt.transferErr round = none) (h2 : flt.sendErr sc = none)
    (h3 : flt.sendErr (sc + 1) = none) (h4 : flt.messagesErr round = some e) :
    garblerLoopF otp flt ws eb ob oc sc round acc
        (Msg.u32 OP_OT :: Msg.u32 b :: Msg.data v :: rest)
      = (.error e,
         [Event.recv (Msg.u32 OP_OT), Event.recv (Msg.u32 b),
          Event.send (Msg.data (otp.randMsgs round).1),
          Event.send (Msg.data (otp.randMsgs round).2),
          Event.recv (Msg.data v)]) := by
  simp [garblerLoopF, faultCheck, h1, h2, h3, h4]

theorem garblerLoopF_m0_err (otp : OTParams) (flt : OTFaults) (ws : List Wire)
    (eb ob oc sc round acc b : Nat) (v : Bytes) (rest : List Msg) (e : GErr)
    (h1 : flt.transferErr round = none) (h2 : flt.sendErr sc = none)
    (h3 : flt.sendErr (sc + 1) = none) (h4 : flt.messagesErr round = none)
    (h5 : flt.sendErr (sc + 2) = some e) :
    garblerLoopF otp flt ws eb ob oc sc round acc
        (Msg.u32 OP_OT :: Msg.u32 b :: Msg.data v :: rest)
      = (.error e,
         [Event.recv (Msg.u32 OP_OT), Event.recv (Msg.u32 b),
          Event.send (Msg.data (otp.randMsgs round).1),
          Event.send (Msg.data (otp.randMsgs round).2),
          Event.recv (Msg.data v)]) := by
  simp [garblerLoopF, faultCheck, h1, h2, h3, h4, h5]

theorem garblerLoopF_ot_full (otp : OTParams) (flt : OTFaults) (ws : List Wire)
    (eb ob oc sc round acc b : Nat) (v : Bytes) (rest : List Msg)
    (h1 : flt.transferErr round = none) (h2 : flt.sendErr sc = none)
    (h3 : flt.sendErr (sc + 1) = none) (h4 : flt.messagesErr round = none)
    (h5 : flt.sendErr (sc + 2) = none) (h6 : flt.sendErr (sc + 3) = none) :
    garblerLoopF otp flt ws eb ob oc sc round acc
        (Msg.u32 OP_OT :: Msg.u32 b :: Msg.data v :: rest)
      = ((garblerLoopF otp flt ws eb ob oc (sc + 4) (round + 1) acc rest).1,
         otRoundEvents ws eb otp round (b, v) ++
           (garblerLoopF otp flt ws eb ob oc (sc + 4) (round + 1) acc rest).2) := by
  simp [garblerLoopF, faultCheck, otRoundEvents, h1, h2, h3, h4, h5, h6]

theorem garblerLoopF_result_ok (otp : OTParams) (flt : OTFaults) (ws : List Wire)
    (eb ob oc sc round acc : Nat) (rest s : List Msg) (res : Nat) (evs : List Event)
    (hr : readResult ws ob oc 0 acc rest = (.ok (res, s), evs))
    (hs : flt.sendErr sc = none) :
    garblerLoopF otp flt ws eb ob oc sc round acc (Msg.u32 OP_RESULT :: rest)
      = (.ok res, Event.recv (Msg.u32 OP_RESULT) :: evs ++
          [Event.send (Msg.data (natBytes res))]) := by
  rw [garblerLoopF.eq_def]
  simp only []
  rw [if_neg (by decide : ¬ OP_RESULT = OP_OT)]
  simp only [if_true]
  rw [hr]
  simp only [faultCheck, hs]

theorem garblerLoopF_result_send_err (otp : OTParams) (flt : OTFaults) (ws : List Wire)
    (eb ob oc sc round acc : Nat) (rest s : List Msg) (res : Nat) (evs : List Event)
    (e : GErr) (hr : readResult ws ob oc 0 acc rest = (.ok (res, s), evs))
    (hs : flt.sendErr sc = some e) :
    garblerLoopF otp flt ws eb ob oc sc round acc (Msg.u32 OP_RESULT :: rest)
      = (.error e, Event.recv (Msg.u32 OP_RESULT) :: evs) := by
  rw [garblerLoopF.eq_def]
  simp only []
  rw [if_neg (by decide : ¬ OP_RESULT = OP_OT)]
  simp only [if_true]
  rw [hr]
  simp only [faultCheck, hs]

theorem garblerLoopF_result_err (otp : OTParams) (flt : OTFaults) (ws : List Wire)
    (eb ob oc sc round acc : Nat) (rest : List Msg) (e : GErr) (evs : List Event)
    (hr : readResult ws ob oc 0 acc rest = (.error e, evs)) :
    garblerLoopF otp flt ws eb ob oc sc round acc (Msg.u32 OP_RESULT :: rest)
      = (.error e, Event.recv (Msg.u32 OP_RESULT) :: evs) := by
  rw [garblerLoopF.eq_def]
  simp only []
  rw [if_neg (by decide : ¬ OP_RESULT = OP_OT)]
  simp only [if_true]
  rw [hr]

theorem garblerLoopF_noFaults (otp : OTParams) (ws : List Wire) (eb ob oc : Nat) :
    ∀ (s : List Msg) (sc round acc : Nat),
    garblerLoopF otp noFaults ws eb ob oc sc round acc s
      = garblerLoop otp ws eb ob oc round acc s := by
  have key : ∀ (n : Nat) (s : List Msg), s.length ≤ n → ∀ (sc round acc : Nat),
      garblerLoopF otp noFaults ws eb ob oc sc round acc s
        = garblerLoop otp ws eb ob oc round acc s := by
    intro n
    induction n with
    | zero =>
      intro s hs sc round acc
      match s with
      | [] => simp [garblerLoopF, garblerLoop]
      | _ :: _ => exact absurd hs (by simp)
    | succ n ih =>
      intro s hs sc round acc
      match s with
      | [] => simp [garblerLoopF, garblerLoop]
      | Msg.data d :: rest => simp [garblerLoopF, garblerLoop]
      | Msg.u32 op :: rest =>
        by_cases hop : op = OP_OT
        · subst hop
          match rest with
          | [] => simp [garblerLoopF, garblerLoop]
          | Msg.data d :: rest2 => simp [garblerLoopF, garblerLoop]
          | Msg.u32 b :: rest2 =>
            match rest2 with
            | [] => simp [garblerLoopF, garblerLoop, faultCheck, noFaults]
            | Msg.u32 _ :: _ => simp [garblerLoopF, garblerLoop, faultCheck, noFaults]
            | Msg.data v :: rest3 =>
              rw [garblerLoopF_ot_full otp noFaults ws eb ob oc sc round acc b v rest3
                  rfl rfl rfl rfl rfl rfl,
                garblerLoop_ot, ih rest3 (by simp at hs; omega) (sc + 4) (round + 1) acc]
        · by_cases hop2 : op = OP_RESULT
          · subst hop2
            rcases hr : readResult ws ob oc 0 acc rest with ⟨r, evs⟩
            match r with
            | .ok (res, s2) =>
              rw [garblerLoopF_result_ok otp noFaults ws eb ob oc sc round acc rest s2
                  res evs hr rfl,
                garblerLoop_result_ok otp ws eb ob oc round acc rest s2 res evs hr]
            | .error e =>
              rw [garblerLoopF_result_err otp noFaults ws eb ob oc sc round acc rest
                  e evs hr,
                garblerLoop_result_err otp ws eb ob oc round acc rest e evs hr]
          · rw [garblerLoopF_other otp noFaults ws eb ob oc sc round acc op rest hop hop2,
              garblerLoop_other otp ws eb ob oc round acc op rest hop hop2,
              ih rest (by simp at hs; omega) sc round acc]
  intro s
  exact key s.length s le_rfl

theorem GarblerF_noFaults (circ : Circuit) (garbleRes : Except GErr Garbled)
    (inputs : List (Option Nat)) (otp : OTParams) (stream : List Msg) :
    GarblerF circ garbleRes inputs otp noFaults stream
      = Garbler circ garbleRes inputs otp stream := by
  match garbleRes with
  | .error e => rfl
  | .ok g =>
    have h1 := sendMsgsF_noFaults (gatesMsgs 0 g.Gates) 0
    have h2 := sendMsgsF_noFaults ((selectN1 circ.N1 inputs g.Wires 0).map Msg.data)
      (0 + (gatesMsgs 0 g.Gates).length)
    have h3 := sendMsgsF_noFaults [Msg.data otp.pubN, Msg.u32 otp.pubE]
      (0 + (gatesMsgs 0 g.Gates).length +
        ((selectN1 circ.N1 inputs g.Wires 0).map Msg.data).length)
    have hn1 : ((selectN1 circ.N1 inputs g.Wires 0).map Msg.data).map Event.send
        = n1Events circ inputs g.Wires := by
      simp [n1Events, List.map_map, Function.comp]
    have hkey : ([Msg.data otp.pubN, Msg.u32 otp.pubE]).map Event.send = keyEvents otp := rfl
    have hns : noFaults.newSenderErr = none := rfl
    cases hl : (garblerLoop otp g.Wires (ioSize circ.N1)
        (circ.NumWires - ioSize circ.N3) (ioSize circ.N3) 0 0 stream).1 <;>
      simp only [GarblerF, Garbler, h1, h2, h3, hns, garblerLoopF_noFaults,
        gatesMsgs_map_send, hn1, hkey, hl]

/-! ### Concrete session data used by the witnesses -/

/-- A small concrete circuit: one Garbler input bit (wire 0), one
Evaluator input bit (wire 1), one output bit (wire 2). -/
def circW : Circuit := ⟨3, [1], [1], [1]⟩

/-- A concrete garbling of `circW`: one gate with a single table row, and
label pairs for the three wires. -/
def gW : Garbled := ⟨[[[9]]], [⟨[10], [11]⟩, ⟨[20], [21]⟩, ⟨[30], [31]⟩]⟩

/-- Concrete OT oracles for the witnesses. -/
def otpW : OTParams := ⟨[5], 3, fun _ => ([1], [2]), fun _ _ => [0]⟩

/-- A fault assignment whose only fault is a failing first session
write. -/
def fltSendW : OTFaults :=
  ⟨none, fun _ => none, fun _ => none,
   fun n => if n = 0 then some .transportClosed else none⟩

/-- A fault assignment whose only fault is a failing third session
write. -/
def fltSend2W : OTFaults :=
  ⟨none, fun _ => none, fun _ => none,
   fun n => if n = 2 then some .transportClosed else none⟩

/-- A fault assignment whose only fault is a failing `ot.NewSender`. -/
def fltSetupW : OTFaults :=
  ⟨some .otFailed, fun _ => none, fun _ => none, fun _ => none⟩

/-- A fault assignment whose only fault is failing `NewTransfer` calls. -/
def fltTransferW : OTFaults :=
  ⟨none, fun _ => some .otFailed, fun _ => none, fun _ => none⟩

/-- A fault assignment whose only fault is failing `Messages` calls. -/
def fltMessagesW : OTFaults :=
  ⟨none, fun _ => none, fun _ => some .otFailed, fun _ => none⟩

/-! ### The claims -/

/-- C1: in a Garbler session consisting of well-formed OT rounds followed
by `OP_RESULT`, the returned value is obtained by decoding the `i`-th
received output label against the wire `NumWires - |N3| + i`, setting bit
`i` of a big integer (little-endian assembly, `assembleFrom`), and
returning `N3.Split` (`ioSplit`) of that integer. -/
theorem C1_result_decoding (circ : Circuit) (g : Garbled) (inputs : List (Option Nat))
    (otp : OTParams) (ps : List (Nat × Bytes)) (labels : List Bytes) (junk : List Msg)
    (r : Nat) (hlen : labels.length = ioSize circ.N3)
    (hassem : assembleFrom g.Wires (circ.NumWires - ioSize circ.N3) 0 0 labels = some r) :
    (Garbler circ (.ok g) inputs otp
      (otRoundsMsgs ps ++ Msg.u32 OP_RESULT :: (labels.map Msg.data ++ junk))).1
      = .ok (ioSplit circ.N3 r) := by
  have hread := readResult_ok g.Wires (circ.NumWires - ioSize circ.N3) labels 0 0 r junk hassem
  rw [hlen] at hread
  rw [Garbler_fst, garblerLoop_otRounds]
  rw [garblerLoop_result_ok _ _ _ _ _ _ _ _ junk r _ hread]

/-- Witness for C1 at a concrete session with one OT round and one
correctly labelled output. -/
theorem C1_result_decoding_witness :
    ([[31]] : List Bytes).length = ioSize circW.N3 ∧
    assembleFrom gW.Wires (circW.NumWires - ioSize circW.N3) 0 0 [[31]] = some 1 ∧
    (Garbler circW (.ok gW) [some 1] otpW
      (otRoundsMsgs [(0, [7])] ++ Msg.u32 OP_RESULT :: (([[31]] : List Bytes).map Msg.data ++ []))).1
      = .ok (ioSplit circW.N3 1) :=
  ⟨by decide, by decide,
   C1_result_decoding circW gW [some 1] otpW [(0, [7])] [[31]] [] 1 (by decide) (by decide)⟩

/-- C2: on `OP_RESULT` the Garbler reads exactly `|N3|` framed labels,
decoding each to bit 0 on `Label0` and bit 1 on `Label1` of the
corresponding output wire (first conjunct: the full session value and
trace, which consumes exactly the `|N3|` label frames and leaves any
following junk unread); if a received label matches neither label of its
wire, the Garbler returns an error and no result (second conjunct). -/
theorem C2_result_read_and_decode (circ : Circuit) (g : Garbled) (inputs : List (Option Nat))
    (otp : OTParams) (labels : List Bytes) (junk : List Msg)
    (hlen : labels.length = ioSize circ.N3) :
    ((∀ j, j < labels.length →
        decodeLabel (wireAt g.Wires (circ.NumWires - ioSize circ.N3 + j))
          (labels.getD j []) ≠ none) →
      ∃ r, assembleFrom g.Wires (circ.NumWires - ioSize circ.N3) 0 0 labels = some r ∧
        (Garbler circ (.ok g) inputs otp
          (Msg.u32 OP_RESULT :: (labels.map Msg.data ++ junk))).1
          = .ok (ioSplit circ.N3 r) ∧
        (Garbler circ (.ok g) inputs otp
          (Msg.u32 OP_RESULT :: (labels.map Msg.data ++ junk))).2
          = sendGates 0 g.Gates ++ n1Events circ inputs g.Wires ++ keyEvents otp ++
            (Event.recv (Msg.u32 OP_RESULT) ::
              (labels.map fun l => Event.recv (Msg.data l)) ++
              [Event.send (Msg.data (natBytes r))])) ∧
    (∀ k, k < labels.length →
      (∀ j, j < k →
        decodeLabel (wireAt g.Wires (circ.NumWires - ioSize circ.N3 + j))
          (labels.getD j []) ≠ none) →
      decodeLabel (wireAt g.Wires (circ.NumWires - ioSize circ.N3 + k))
        (labels.getD k []) = none →
      (Garbler circ (.ok g) inputs otp
        (Msg.u32 OP_RESULT :: (labels.map Msg.data ++ junk))).1
        = .error (.unknownLabel (labels.getD k []) k)) := by
  constructor
  · intro hdec
    have hdec2 : ∀ j, j < labels.length →
        decodeLabel (wireAt g.Wires (circ.NumWires - ioSize circ.N3 + 0 + j))
          (labels.getD j []) ≠ none := by
      intro j hj
      simpa using hdec j hj
    obtain ⟨r, hr⟩ :=
      assembleFrom_isSome g.Wires (circ.NumWires - ioSize circ.N3) labels 0 0 hdec2
    have hread := readResult_ok g.Wires (circ.NumWires - ioSize circ.N3) labels 0 0 r junk hr
    rw [hlen] at hread
    refine ⟨r, hr, ?_, ?_⟩
    · rw [Garbler_fst, garblerLoop_result_ok _ _ _ _ _ _ _ _ junk r _ hread]
    · rw [Garbler_snd, garblerLoop_result_ok _ _ _ _ _ _ _ _ junk r _ hread]
  · intro k hk hpre hbad
    have hpre2 : ∀ j, j < k →
        decodeLabel (wireAt g.Wires (circ.NumWires - ioSize circ.N3 + 0 + j))
          (labels.getD j []) ≠ none := by
      intro j hj
      simpa using hpre j hj
    have hbad2 : decodeLabel (wireAt g.Wires (circ.NumWires - ioSize circ.N3 + 0 + k))
        (labels.getD k []) = none := by
      simpa using hbad
    have herr := readResult_err g.Wires (circ.NumWires - ioSize circ.N3) labels k
      (ioSize circ.N3) 0 0 junk hk (by omega) hpre2 hbad2
    rcases hr : readResult g.Wires (circ.NumWires - ioSize circ.N3)
        (ioSize circ.N3) 0 0 (labels.map Msg.data ++ junk) with ⟨rr, evs⟩
    rw [hr] at herr
    simp only [Nat.zero_add] at herr
    rw [Garbler_fst, garblerLoop_result_err _ _ _ _ _ _ _ _
      (.unknownLabel (labels.getD k []) k) evs (by rw [hr, herr])]

/-- Witness for C2 at a concrete session: both the all-valid and the
mismatching-label cases. -/
theorem C2_result_read_and_decode_witness :
    ([[30]] : List Bytes).length = ioSize circW.N3 ∧
    (∀ j, j < ([[30]] : List Bytes).length →
      decodeLabel (wireAt gW.Wires (circW.NumWires - ioSize circW.N3 + j))
        (([[30]] : List Bytes).getD j []) ≠ none) ∧
    (∃ r, assembleFrom gW.Wires (circW.NumWires - ioSize circW.N3) 0 0 [[30]] = some r ∧
      (Garbler circW (.ok gW) [] otpW
        (Msg.u32 OP_RESULT :: (([[30]] : List Bytes).map Msg.data ++ []))).1
        = .ok (ioSplit circW.N3 r) ∧
      (Garbler circW (.ok gW) [] otpW
        (Msg.u32 OP_RESULT :: (([[30]] : List Bytes).map Msg.data ++ []))).2
        = sendGates 0 gW.Gates ++ n1Events circW [] gW.Wires ++ keyEvents otpW ++
          (Event.recv (Msg.u32 OP_RESULT) ::
            (([[30]] : List Bytes).map fun l => Event.recv (Msg.data l)) ++
            [Event.send (Msg.data (natBytes r))])) ∧
    (Garbler circW (.ok gW) [] otpW
      (Msg.u32 OP_RESULT :: (([[99]] : List Bytes).map Msg.data ++ []))).1
      = .error (.unknownLabel ([99] : Bytes) 0) :=
  ⟨by decide, by decide,
   (C2_result_read_and_decode circW gW [] otpW [[30]] [] (by decide)).1 (by decide),
   by
     have h := (C2_result_read_and_decode circW gW [] otpW [[99]] [] (by decide)).2
       0 (by decide) (by decide) (by decide)
     simpa using h⟩

/-- C3: in every Garbler session the trace is totally ordered as all
garbled gate tables, then the Garbler's input labels, then the RSA public
key, then the message loop; and the loop trace has the `LoopShape` form,
in which every OT round sends `x0` and `x1` before reading `v` and sends
the masked pair only after reading `v`, and a result phase ends the
loop. -/
theorem C3_session_ordering (circ : Circuit) (g : Garbled) (inputs : List (Option Nat))
    (otp : OTParams) (stream : List Msg) :
    ∃ t, (Garbler circ (.ok g) inputs otp stream).2
        = sendGates 0 g.Gates ++ n1Events circ inputs g.Wires ++ keyEvents otp ++ t ∧
      LoopShape t :=
  ⟨(garblerLoop otp g.Wires (ioSize circ.N1) (circ.NumWires - ioSize circ.N3)
      (ioSize circ.N3) 0 0 stream).2,
   Garbler_snd circ g inputs otp stream,
   loopShape_garblerLoop otp g.Wires (ioSize circ.N1) (circ.NumWires - ioSize circ.N3)
     (ioSize circ.N3) stream 0 0⟩

/-- C4: for a session whose requests are well-formed OT rounds, the wire
whose label pair is masked in the `i`-th round is the wire
`ioSize N1 + i` — the `i`-th Evaluator input wire, determined by the
round position as `otRoundsEvents` shows — and the advisory bit index of
a round occurs only in a receive event: the send events of a round are
unchanged under any change of the bit index. -/
theorem C4_ot_wire_positional (circ : Circuit) (g : Garbled) (inputs : List (Option Nat))
    (otp : OTParams) (ps : List (Nat × Bytes)) (tail : List Msg) :
    (Garbler circ (.ok g) inputs otp (otRoundsMsgs ps ++ tail)).2
      = sendGates 0 g.Gates ++ n1Events circ inputs g.Wires ++ keyEvents otp ++
        (otRoundsEvents g.Wires (ioSize circ.N1) otp 0 ps ++
          (garblerLoop otp g.Wires (ioSize circ.N1) (circ.NumWires - ioSize circ.N3)
            (ioSize circ.N3) ps.length 0 tail).2) ∧
    (∀ (ws : List Wire) (eb r b b2 : Nat) (v : Bytes),
      sentEvents (otRoundEvents ws eb otp r (b, v))
        = sentEvents (otRoundEvents ws eb otp r (b2, v))) := by
  constructor
  · rw [Garbler_snd, garblerLoop_otRounds]
    simp
  · intro ws eb r b b2 v
    simp [otRoundEvents, sentEvents]

/-- C5: the tables are sent gate by gate in circuit order: for each gate,
in enumeration order, the gate id as u32, the row count as u32, then the
framed rows, and this block is the first thing on the stream. -/
theorem C5_tables_in_order (circ : Circuit) (g : Garbled) (inputs : List (Option Nat))
    (otp : OTParams) (stream : List Msg) :
    sendGates 0 g.Gates = gateTableMsgs g.Gates ∧
    ∃ t, (Garbler circ (.ok g) inputs otp stream).2 = gateTableMsgs g.Gates ++ t := by
  refine ⟨sendGates_eq_gateTableMsgs g.Gates,
    ⟨n1Events circ inputs g.Wires ++ keyEvents otp ++
      (garblerLoop otp g.Wires (ioSize circ.N1) (circ.NumWires - ioSize circ.N3)
        (ioSize circ.N3) 0 0 stream).2, ?_⟩⟩
  rw [Garbler_snd, ← sendGates_eq_gateTableMsgs]
  simp [List.append_assoc]

/-- C6: for every supplied Garbler input, taken over the `N1` groups in
declared order and within each group in ascending bit position, the label
placed at offset `n1Offset idx + i` of the sent input-label sequence is
`Label1` of the corresponding wire when bit `i` of the input integer is
one and `Label0` otherwise; and the trace sends exactly that sequence,
one framed label per bit, directly after the tables. -/
theorem C6_own_input_labels (circ : Circuit) (g : Garbled) (inputs : List (Option Nat))
    (otp : OTParams) (stream : List Msg) (idx i x : Nat)
    (hin : inputs.getD idx none = some x)
    (hidx : idx < circ.N1.length) (hi : i < circ.N1.getD idx 0) :
    (selectN1 circ.N1 inputs g.Wires 0).getD (n1Offset circ.N1 idx + i) []
      = (if x.testBit i then (wireAt g.Wires (n1Offset circ.N1 idx + i)).Label1
         else (wireAt g.Wires (n1Offset circ.N1 idx + i)).Label0) ∧
    (Garbler circ (.ok g) inputs otp stream).2
      = sendGates 0 g.Gates ++
        ((selectN1 circ.N1 inputs g.Wires 0).map fun b => Event.send (Msg.data b)) ++
        keyEvents otp ++
        (garblerLoop otp g.Wires (ioSize circ.N1) (circ.NumWires - ioSize circ.N3)
          (ioSize circ.N3) 0 0 stream).2 := by
  constructor
  · have hsel := selectN1_getD circ.N1 idx inputs g.Wires 0 i hidx hi
    rw [hsel, hin]
    simp [selLabel]
  · rw [Garbler_snd]
    rfl

/-- Witness for C6 at a concrete input with a one-bit group. -/
theorem C6_own_input_labels_witness :
    (([some 1] : List (Option Nat)).getD 0 none = some 1 ∧
      0 < circW.N1.length ∧ 0 < circW.N1.getD 0 0) ∧
    ((selectN1 circW.N1 [some 1] gW.Wires 0).getD (n1Offset circW.N1 0 + 0) []
      = (if Nat.testBit 1 0 then (wireAt gW.Wires (n1Offset circW.N1 0 + 0)).Label1
         else (wireAt gW.Wires (n1Offset circW.N1 0 + 0)).Label0) ∧
     (Garbler circW (.ok gW) [some 1] otpW []).2
      = sendGates 0 gW.Gates ++
        ((selectN1 circW.N1 [some 1] gW.Wires 0).map fun b => Event.send (Msg.data b)) ++
        keyEvents otpW ++
        (garblerLoop otpW gW.Wires (ioSize circW.N1) (circW.NumWires - ioSize circW.N3)
          (ioSize circW.N3) 0 0 []).2) :=
  ⟨⟨by decide, by decide, by decide⟩,
   C6_own_input_labels circW gW [some 1] otpW [] 0 0 1 (by decide) (by decide) (by decide)⟩

/-- C7 counterexample: the claim says an out-of-range opcode makes the
session fail with a protocol error, but in a concrete session in which
the Garbler reads the unknown opcode 7 before a valid result message, the
Garbler still returns a successful result, so no error is raised. -/
theorem C7_unknown_opcode_counterexample :
    (7 ≠ OP_OT ∧ 7 ≠ OP_RESULT) ∧
    Event.recv (Msg.u32 7) ∈
      (Garbler circW (.ok gW) [] otpW [Msg.u32 7, Msg.u32 OP_RESULT, Msg.data [30]]).2 ∧
    (Garbler circW (.ok gW) [] otpW [Msg.u32 7, Msg.u32 OP_RESULT, Msg.data [30]]).1
      = .ok [0] := by
  refine ⟨⟨by decide, by decide⟩, by decide, rfl⟩

/-- C7 amended: an opcode that is neither `OP_OT` nor `OP_RESULT` is
silently ignored: the loop records the read and continues with the rest
of the stream, with state unchanged; the session does not fail on it. -/
theorem C7_unknown_opcode_ignored (otp : OTParams) (ws : List Wire) (eb ob oc round acc op : Nat)
    (rest : List Msg) (h1 : op ≠ OP_OT) (h2 : op ≠ OP_RESULT) :
    garblerLoop otp ws eb ob oc round acc (Msg.u32 op :: rest)
      = ((garblerLoop otp ws eb ob oc round acc rest).1,
         Event.recv (Msg.u32 op) :: (garblerLoop otp ws eb ob oc round acc rest).2) :=
  garblerLoop_other otp ws eb ob oc round acc op rest h1 h2

/-- Witness for the amended C7 at the concrete opcode 7. -/
theorem C7_unknown_opcode_ignored_witness :
    (7 ≠ OP_OT ∧ 7 ≠ OP_RESULT) ∧
    garblerLoop otpW gW.Wires 1 2 1 0 0 (Msg.u32 7 :: [Msg.u32 OP_RESULT, Msg.data [30]])
      = ((garblerLoop otpW gW.Wires 1 2 1 0 0 [Msg.u32 OP_RESULT, Msg.data [30]]).1,
         Event.recv (Msg.u32 7) ::
           (garblerLoop otpW gW.Wires 1 2 1 0 0 [Msg.u32 OP_RESULT, Msg.data [30]]).2) :=
  ⟨⟨by decide, by decide⟩,
   C7_unknown_opcode_ignored otpW gW.Wires 1 2 1 0 0 7
     [Msg.u32 OP_RESULT, Msg.data [30]] (by decide) (by decide)⟩

/-- Every event of the table transfer is a send. -/
theorem mem_sendGates_send : ∀ (gates : List (List Bytes)) (id : Nat) (e : Event),
    e ∈ sendGates id gates → ∃ m, e = Event.send m := by
  intro gates
  induction gates with
  | nil => intro id e he; simp [sendGates] at he
  | cons g gs ih =>
    intro id e he
    simp only [sendGates, List.mem_cons, List.mem_append, List.mem_map] at he
    rcases he with (rfl | rfl | ⟨d, _, hd⟩) | h
    · exact ⟨_, rfl⟩
    · exact ⟨_, rfl⟩
    · exact ⟨_, hd.symm⟩
    · exact ih (id + 1) e h

/-- C8: every failure in the Garbler is fatal to the session, over the
fault-carrying model `GarblerF` that keeps every error return of the
source: (1) a garbling failure is returned with nothing sent; (2) a
failing write aborts its batch at the first failing write; (3) a failing
first table write kills the session with nothing sent; (4) an
`ot.NewSender` failure is fatal; (5) a `NewTransfer` failure is fatal;
(6) a failing `x0` write in an OT round is fatal; (7) an `xfer.Messages`
failure is fatal; (8) a failing masked-pair write is fatal; (9) a failing
result write is fatal; (10) a receive failure (exhausted stream) is
fatal; and (11) a successful return always carries one decoded value per
declared output group — never a partial output (an error carries no
result by the return type, mirroring `return nil, err`). -/
theorem C8_errors_fatal (circ : Circuit) (garbleRes : Except GErr Garbled)
    (inputs : List (Option Nat)) (otp : OTParams) (flt : OTFaults) (stream : List Msg) :
    (∀ e, garbleRes = .error e →
      GarblerF circ garbleRes inputs otp flt stream = (.error e, [])) ∧
    (∀ (ms : List Msg) (n k : Nat) (e : GErr), k < ms.length →
      (∀ j, j < k → flt.sendErr (n + j) = none) → flt.sendErr (n + k) = some e →
      (sendMsgsF flt n ms).1 = .error e) ∧
    (∀ g e, garbleRes = .ok g → g.Gates ≠ [] → flt.sendErr 0 = some e →
      GarblerF circ garbleRes inputs otp flt stream = (.error e, [])) ∧
    (∀ g e, garbleRes = .ok g → (∀ n, flt.sendErr n = none) → flt.newSenderErr = some e →
      (GarblerF circ garbleRes inputs otp flt stream).1 = .error e) ∧
    (∀ (ws : List Wire) (eb ob oc sc round acc b : Nat) (rest : List Msg) (e : GErr),
      flt.transferErr round = some e →
      (garblerLoopF otp flt ws eb ob oc sc round acc
        (Msg.u32 OP_OT :: Msg.u32 b :: rest)).1 = .error e) ∧
    (∀ (ws : List Wire) (eb ob oc sc round acc b : Nat) (rest : List Msg) (e : GErr),
      flt.transferErr round = none → flt.sendErr sc = some e →
      (garblerLoopF otp flt ws eb ob oc sc round acc
        (Msg.u32 OP_OT :: Msg.u32 b :: rest)).1 = .error e) ∧
    (∀ (ws : List Wire) (eb ob oc sc round acc b : Nat) (v : Bytes) (rest : List Msg)
      (e : GErr), flt.transferErr round = none → flt.sendErr sc = none →
      flt.sendErr (sc + 1) = none → flt.messagesErr round = some e →
      (garblerLoopF otp flt ws eb ob oc sc round acc
        (Msg.u32 OP_OT :: Msg.u32 b :: Msg.data v :: rest)).1 = .error e) ∧
    (∀ (ws : List Wire) (eb ob oc sc round acc b : Nat) (v : Bytes) (rest : List Msg)
      (e : GErr), flt.transferErr round = none → flt.sendErr sc = none →
      flt.sendErr (sc + 1) = none → flt.messagesErr round = none →
      flt.sendErr (sc + 2) = some e →
      (garblerLoopF otp flt ws eb ob oc sc round acc
        (Msg.u32 OP_OT :: Msg.u32 b :: Msg.data v :: rest)).1 = .error e) ∧
    (∀ (ws : List Wire) (eb ob oc sc round acc : Nat) (rest s2 : List Msg) (res : Nat)
      (evs : List Event) (e : GErr),
      readResult ws ob oc 0 acc rest = (.ok (res, s2), evs) → flt.sendErr sc = some e →
      (garblerLoopF otp flt ws eb ob oc sc round acc
        (Msg.u32 OP_RESULT :: rest)).1 = .error e) ∧
    (∀ g, garbleRes = .ok g → (∀ n, flt.sendErr n = none) → flt.newSenderErr = none →
      stream = [] →
      (GarblerF circ garbleRes inputs otp flt stream).1 = .error .transportClosed) ∧
    (∀ outs, (GarblerF circ garbleRes inputs otp flt stream).1 = .ok outs →
      outs.length = circ.N3.length) := by
  refine ⟨?_, ?_, ?_, ?_, ?_, ?_, ?_, ?_, ?_, ?_, ?_⟩
  · intro e he
    subst he
    rfl
  · exact fun ms n k e hk hpre hke => sendMsgsF_err ms flt n k e hk hpre hke
  · intro g e hg hne hs
    subst hg
    rcases hG : g.Gates with _ | ⟨rows, rest⟩
    · exact absurd hG hne
    · have hfull : sendMsgsF flt 0 (gatesMsgs 0 (rows :: rest)) = (.error e, []) := by
        simp only [gatesMsgs]
        rw [sendMsgsF.eq_def]
        simp [hs]
      simp only [GarblerF, hG, hfull]
  · intro g e hg hsall hns
    subst hg
    have hall := sendMsgsF_ok_of_none flt hsall
    simp only [GarblerF, hall, hns]
  · intro ws eb ob oc sc round acc b rest e h
    rw [garblerLoopF_transfer_err otp flt ws eb ob oc sc round acc b rest e h]
  · intro ws eb ob oc sc round acc b rest e h1 h2
    rw [garblerLoopF_x0_err otp flt ws eb ob oc sc round acc b rest e h1 h2]
  · intro ws eb ob oc sc round acc b v rest e h1 h2 h3 h4
    rw [garblerLoopF_messages_err otp flt ws eb ob oc sc round acc b v rest e h1 h2 h3 h4]
  · intro ws eb ob oc sc round acc b v rest e h1 h2 h3 h4 h5
    rw [garblerLoopF_m0_err otp flt ws eb ob oc sc round acc b v rest e h1 h2 h3 h4 h5]
  · intro ws eb ob oc sc round acc rest s2 res evs e hr hs
    rw [garblerLoopF_result_send_err otp flt ws eb ob oc sc round acc rest s2 res evs e hr hs]
  · intro g hg hsall hns hstream
    subst hg
    subst hstream
    have hall := sendMsgsF_ok_of_none flt hsall
    have hloop : ∀ sc : Nat, garblerLoopF otp flt g.Wires (ioSize circ.N1)
        (circ.NumWires - ioSize circ.N3) (ioSize circ.N3) sc 0 0 []
        = (.error .transportClosed, []) := fun sc => by
      rw [garblerLoopF.eq_def]
    simp only [GarblerF, hall, hns, hloop]
  · intro outs houts
    match garbleRes with
    | .error e => exact absurd houts (by simp [GarblerF])
    | .ok g =>
      simp only [GarblerF] at houts
      repeat' split at houts
      all_goals simp at houts
      rw [← houts]
      exact ioSplit_length circ.N3 _

/-- Witness for C8: one concrete fatal session per failure family, plus a
concrete complete output. -/
theorem C8_errors_fatal_witness :
    GarblerF circW (.error .garbleFailed) [] otpW noFaults [] = (.error .garbleFailed, []) ∧
    (sendMsgsF fltSendW 0 [Msg.u32 0]).1 = .error .transportClosed ∧
    GarblerF circW (.ok gW) [] otpW fltSendW [] = (.error .transportClosed, []) ∧
    (GarblerF circW (.ok gW) [] otpW fltSetupW []).1 = .error .otFailed ∧
    (garblerLoopF otpW fltTransferW gW.Wires 1 2 1 0 0 0
      (Msg.u32 OP_OT :: Msg.u32 0 :: [])).1 = .error .otFailed ∧
    (garblerLoopF otpW fltSendW gW.Wires 1 2 1 0 0 0
      (Msg.u32 OP_OT :: Msg.u32 0 :: [])).1 = .error .transportClosed ∧
    (garblerLoopF otpW fltMessagesW gW.Wires 1 2 1 0 0 0
      (Msg.u32 OP_OT :: Msg.u32 0 :: Msg.data [7] :: [])).1 = .error .otFailed ∧
    (garblerLoopF otpW fltSend2W gW.Wires 1 2 1 0 0 0
      (Msg.u32 OP_OT :: Msg.u32 0 :: Msg.data [7] :: [])).1 = .error .transportClosed ∧
    (garblerLoopF otpW fltSendW gW.Wires 1 2 1 0 0 0
      (Msg.u32 OP_RESULT :: [Msg.data [30]])).1 = .error .transportClosed ∧
    (GarblerF circW (.ok gW) [] otpW noFaults []).1 = .error .transportClosed ∧
    ([0] : List Nat).length = circW.N3.length :=
  ⟨(C8_errors_fatal circW (.error .garbleFailed) [] otpW noFaults []).1 .garbleFailed rfl,
   (C8_errors_fatal circW (.ok gW) [] otpW fltSendW []).2.1 [Msg.u32 0] 0 0
     .transportClosed (by decide) (fun j hj => absurd hj (Nat.not_lt_zero j)) (by decide),
   (C8_errors_fatal circW (.ok gW) [] otpW fltSendW []).2.2.1 gW .transportClosed rfl
     (by decide) (by decide),
   (C8_errors_fatal circW (.ok gW) [] otpW fltSetupW []).2.2.2.1 gW .otFailed rfl
     (fun n => rfl) rfl,
   (C8_errors_fatal circW (.ok gW) [] otpW fltTransferW []).2.2.2.2.1 gW.Wires 1 2 1 0 0 0
     0 [] .otFailed rfl,
   (C8_errors_fatal circW (.ok gW) [] otpW fltSendW []).2.2.2.2.2.1 gW.Wires 1 2 1 0 0 0
     0 [] .transportClosed rfl (by decide),
   (C8_errors_fatal circW (.ok gW) [] otpW fltMessagesW []).2.2.2.2.2.2.1 gW.Wires 1 2 1
     0 0 0 0 [7] [] .otFailed rfl rfl rfl rfl,
   (C8_errors_fatal circW (.ok gW) [] otpW fltSend2W []).2.2.2.2.2.2.2.1 gW.Wires 1 2 1
     0 0 0 0 [7] [] .transportClosed rfl (by decide) (by decide) rfl (by decide),
   (C8_errors_fatal circW (.ok gW) [] otpW fltSendW []).2.2.2.2.2.2.2.2.1 gW.Wires 1 2 1
     0 0 0 [Msg.data [30]] [] 0 [Event.recv (Msg.data [30])] .transportClosed rfl
     (by decide),
   (C8_errors_fatal circW (.ok gW) [] otpW noFaults []).2.2.2.2.2.2.2.2.2.1 gW rfl
     (fun n => rfl) rfl rfl,
   (C8_errors_fatal circW (.ok gW) [] otpW noFaults
     [Msg.u32 OP_RESULT, Msg.data [30]]).2.2.2.2.2.2.2.2.2.2 [0] rfl⟩

/-- C9: when fewer input integers are supplied than declared `N1` groups,
the Garbler does not fail: every bit of each missing group selects
`Label0` (absent inputs are treated as zero), and the whole session is
identical to one where the missing inputs are supplied as zero. -/
theorem C9_missing_inputs_zero (circ : Circuit) (g : Garbled) (inputs : List (Option Nat))
    (otp : OTParams) (stream : List Msg) (k idx i : Nat)
    (hmiss : inputs.length ≤ idx) (hidx : idx < circ.N1.length) (hi : i < circ.N1.getD idx 0) :
    (selectN1 circ.N1 inputs g.Wires 0).getD (n1Offset circ.N1 idx + i) []
      = (wireAt g.Wires (n1Offset circ.N1 idx + i)).Label0 ∧
    Garbler circ (.ok g) inputs otp stream
      = Garbler circ (.ok g) (inputs ++ List.replicate k (some 0)) otp stream := by
  constructor
  · have hsel := selectN1_getD circ.N1 idx inputs g.Wires 0 i hidx hi
    have hnone : inputs.getD idx none = none := by
      rw [List.getD_eq_default]
      exact hmiss
    rw [hsel, hnone]
    simp [selLabel]
  · have hsel := selectN1_pad circ.N1 inputs k g.Wires 0
    simp only [Garbler, n1Events, hsel]

/-- Witness for C9 with no inputs supplied for the single declared
group. -/
theorem C9_missing_inputs_zero_witness :
    (([] : List (Option Nat)).length ≤ 0 ∧ 0 < circW.N1.length ∧ 0 < circW.N1.getD 0 0) ∧
    ((selectN1 circW.N1 [] gW.Wires 0).getD (n1Offset circW.N1 0 + 0) []
      = (wireAt gW.Wires (n1Offset circW.N1 0 + 0)).Label0 ∧
     Garbler circW (.ok gW) [] otpW []
      = Garbler circW (.ok gW) ([] ++ List.replicate 1 (some 0)) otpW []) :=
  ⟨⟨by decide, by decide, by decide⟩,
   C9_missing_inputs_zero circW gW [] otpW [] 1 0 0 (by decide) (by decide) (by decide)⟩

/-- C10: the message loop accepts `OP_RESULT` as the very first opcode:
with no OT round performed, it decodes the received labels, returns the
split result and terminates, and the trace contains no OT request at all
— nothing checks that the Evaluator's input wires were transferred. -/
theorem C10_result_before_any_ot (circ : Circuit) (g : Garbled) (inputs : List (Option Nat))
    (otp : OTParams) (labels : List Bytes) (junk : List Msg) (r : Nat)
    (hlen : labels.length = ioSize circ.N3)
    (hassem : assembleFrom g.Wires (circ.NumWires - ioSize circ.N3) 0 0 labels = some r) :
    (Garbler circ (.ok g) inputs otp
      (Msg.u32 OP_RESULT :: (labels.map Msg.data ++ junk))).1 = .ok (ioSplit circ.N3 r) ∧
    ∀ e ∈ (Garbler circ (.ok g) inputs otp
      (Msg.u32 OP_RESULT :: (labels.map Msg.data ++ junk))).2,
      e ≠ Event.recv (Msg.u32 OP_OT) := by
  have hread := readResult_ok g.Wires (circ.NumWires - ioSize circ.N3) labels 0 0 r junk hassem
  rw [hlen] at hread
  have hloop := garblerLoop_result_ok otp g.Wires (ioSize circ.N1)
    (circ.NumWires - ioSize circ.N3) (ioSize circ.N3) 0 0
    (labels.map Msg.data ++ junk) junk r _ hread
  constructor
  · rw [Garbler_fst, hloop]
  · intro e he hc
    subst hc
    rw [Garbler_snd, hloop] at he
    simp [keyEvents, n1Events, OP_OT, OP_RESULT] at he
    obtain ⟨m, hm⟩ := mem_sendGates_send g.Gates 0 _ he
    exact Event.noConfusion hm

/-- Witness for C10 at a concrete session whose first opcode is
`OP_RESULT`. -/
theorem C10_result_before_any_ot_witness :
    (([[31]] : List Bytes).length = ioSize circW.N3 ∧
      assembleFrom gW.Wires (circW.NumWires - ioSize circW.N3) 0 0 [[31]] = some 1) ∧
    ((Garbler circW (.ok gW) [] otpW
        (Msg.u32 OP_RESULT :: (([[31]] : List Bytes).map Msg.data ++ []))).1
      = .ok (ioSplit circW.N3 1) ∧
     ∀ e ∈ (Garbler circW (.ok gW) [] otpW
        (Msg.u32 OP_RESULT :: (([[31]] : List Bytes).map Msg.data ++ []))).2,
       e ≠ Event.recv (Msg.u32 OP_OT)) :=
  ⟨⟨by decide, by decide⟩,
   C10_result_before_any_ot circW gW [] otpW [[31]] [] 1 (by decide) (by decide)⟩

end MPC
